import Mathlib

/-!
Verification of the Tor control-port client in `src/main.rs`.

The file gives a shallow embedding of the control-protocol core of the
program: the response parser (`read_response`), the circuit-status parser
(`get_circuit_info`), node resolution (`get_node_info`), the circuit-wait
loop (`wait_for_circuits`) and the authentication state machine
(`authenticate`).  Bytes are modelled as `Nat` values below 256, strings as
Lean `String`s manipulated through their character lists (the program only
handles ASCII protocol text, where Rust's byte indices and character
indices coincide).  I/O is modelled by explicit state passing: a connection
state carries the queue of pending replies, the trace of commands written
to the socket, and the trace of log lines emitted through `tracing`.
-/

set_option linter.unusedVariables false

/-! ### String helpers mirroring the Rust standard-library primitives used -/

/-- ASCII whitespace, as recognised by `str::trim` / `split_whitespace`
on the protocol's ASCII text. -/
def wsChar (c : Char) : Bool :=
  c == ' ' || c == '\t' || c == '\n' || c == '\r'

/-- `str::trim` on a character list. -/
def trimChars (cs : List Char) : List Char :=
  ((cs.dropWhile wsChar).reverse.dropWhile wsChar).reverse

/-- `str::trim`. -/
def trimStr (s : String) : String := String.mk (trimChars s.toList)

/-- `str::starts_with`. -/
def startsWithStr (s p : String) : Bool := p.toList.isPrefixOf s.toList

/-- Byte slice `&s[n..]` on ASCII text. -/
def dropStr (n : Nat) (s : String) : String := String.mk (s.toList.drop n)

/-- `str::split(sep)` for a single separator character (keeps empty pieces,
like Rust's `split`). -/
def splitOnCharGo (sep : Char) : List Char → List Char → List String
  | [], acc => [String.mk acc.reverse]
  | c :: t, acc =>
    if c == sep then String.mk acc.reverse :: splitOnCharGo sep t []
    else splitOnCharGo sep t (c :: acc)

/-- `str::split(sep)` for a single separator character. -/
def splitOnCharStr (s : String) (sep : Char) : List String :=
  splitOnCharGo sep s.toList []

/-- `str::split_whitespace` (runs of whitespace separate tokens, no empty
tokens are produced). -/
def splitWsGo : List Char → List Char → List String
  | [], acc => if acc.isEmpty then [] else [String.mk acc.reverse]
  | c :: t, acc =>
    if wsChar c then
      if acc.isEmpty then splitWsGo t [] else String.mk acc.reverse :: splitWsGo t []
    else splitWsGo t (c :: acc)

/-- `str::split_whitespace`. -/
def splitWsStr (s : String) : List String := splitWsGo s.toList []

/-- Substring search on character lists (`str::contains(pattern)`). -/
def hasSubChars (needle : List Char) : List Char → Bool
  | [] => needle.isEmpty
  | c :: t => needle.isPrefixOf (c :: t) || hasSubChars needle t

/-- `str::contains` with a string pattern. -/
def hasSubStr (s pat : String) : Bool := hasSubChars pat.toList s.toList

/-- The suffix of `hay` after the first occurrence of `needle`
(`none` when `needle` does not occur). -/
def afterFirstSub (needle : List Char) : List Char → Option (List Char)
  | [] => if needle.isEmpty then some [] else none
  | c :: t =>
    if needle.isPrefixOf (c :: t) then some ((c :: t).drop needle.length)
    else afterFirstSub needle t

/-- `hay` up to (excluding) the first occurrence of the nonempty `needle`
(all of `hay` when `needle` does not occur). -/
def upToSub (needle : List Char) : List Char → List Char
  | [] => []
  | c :: t =>
    if !needle.isEmpty && needle.isPrefixOf (c :: t) then []
    else c :: upToSub needle t

/-- `s.split(pat).nth(1)`: the text strictly between the first occurrence of
`pat` and the next occurrence of `pat` (or the end of the string). -/
def splitNth1 (pat : String) (s : String) : Option String :=
  (afterFirstSub pat.toList s.toList).map (fun t => String.mk (upToSub pat.toList t))

/-- `str::trim_matches(|c| c == '"' || c == ' ')`. -/
def quoteSpace (c : Char) : Bool := c == '"' || c == ' '

/-- `str::trim_matches(|c| c == '"' || c == ' ')`. -/
def trimQuoteSpace (s : String) : String :=
  String.mk (((s.toList.dropWhile quoteSpace).reverse.dropWhile quoteSpace).reverse)

/-- `str::trim_end_matches('"')`. -/
def trimEndQuote (s : String) : String :=
  String.mk ((s.toList.reverse.dropWhile (· == '"')).reverse)

/-- `str::to_uppercase` restricted to the ASCII text it is applied to. -/
def strToUpper (s : String) : String := String.mk (s.toList.map Char.toUpper)

/-- Decimal rendering of a `Nat` (for the `{}` of length values in log
lines); fuel-structured so it evaluates in the kernel. -/
def natReprGo : Nat → Nat → List Char
  | 0, _ => []
  | _ + 1, 0 => []
  | fuel + 1, n => natReprGo fuel (n / 10) ++ [Char.ofNat (48 + n % 10)]

/-- Decimal rendering of a `Nat`. -/
def natRepr (n : Nat) : String :=
  if n = 0 then "0" else String.mk (natReprGo (n + 1) n)

/-- The `{:?}` debug rendering of a `Vec<String>` used by the log lines. -/
def fmtStrList (xs : List String) : String :=
  "[" ++ String.intercalate ", " (xs.map (fun s => "\"" ++ s ++ "\"")) ++ "]"

/-! ### Hex encoding and decoding (`hex::encode`, `hex::decode`) -/

/-- Lower-case hex digit of a value below 16. -/
def hexDigitLower (n : Nat) : Char :=
  if n < 10 then Char.ofNat (48 + n) else Char.ofNat (87 + n)

/-- `hex::encode`: lower-case hex, two digits per byte. -/
def hexEncodeLower (bs : List Nat) : String :=
  String.mk (bs.flatMap (fun b => [hexDigitLower (b / 16 % 16), hexDigitLower (b % 16)]))

/-- Value of one hex digit character, upper or lower case. -/
def hexDigitVal? (c : Char) : Option Nat :=
  if '0' ≤ c && c ≤ '9' then some (c.toNat - 48)
  else if 'a' ≤ c && c ≤ 'f' then some (c.toNat - 87)
  else if 'A' ≤ c && c ≤ 'F' then some (c.toNat - 55)
  else none

/-- `hex::decode` on a character list: fails on an odd length or a non-hex
character. -/
def hexDecodeChars : List Char → Option (List Nat)
  | [] => some []
  | [_] => none
  | a :: b :: t =>
    match hexDigitVal? a, hexDigitVal? b, hexDecodeChars t with
    | some x, some y, some r => some ((16 * x + y) :: r)
    | _, _, _ => none

/-- `hex::decode`. -/
def hexDecode (s : String) : Option (List Nat) := hexDecodeChars s.toList

/-! ### Response parser: `TorControl::read_response` (src/main.rs:285-314)

The control stream is modelled as the finite list of lines still to be
delivered; once it is exhausted the channel is closed and `read_line`
behaves as Rust's `BufRead::read_line` does at EOF: it returns `Ok(0)`
leaving the line buffer empty, so the parsed line is `""`.  The loop has no
exit for that case, so the model is fuelled: `none` means the loop was
still running when the fuel ran out. -/

/-- The error-code test of line 304: `515 `, `551 ` or `550 `. -/
def errLine (t : String) : Bool :=
  startsWithStr t "515 " || startsWithStr t "551 " || startsWithStr t "550 "

/-- One fuelled run of the `loop` of `read_response`.  `isData` is the
`is_data` flag, `acc` the `response` vector. -/
def readRespGo : Nat → List String → Bool → List String → Option (Except String (List String))
  | 0, _, _, _ => none
  | fuel + 1, stream, isData, acc =>
    let line := match stream with | [] => "" | l :: _ => l
    let rest := match stream with | [] => [] | _ :: t => t
    let t := trimStr line
    if startsWithStr t "250+" then readRespGo fuel rest true (acc ++ [dropStr 4 t])
    else if startsWithStr t "250-" then readRespGo fuel rest isData (acc ++ [dropStr 4 t])
    else if startsWithStr t "250 " then some (Except.ok (acc ++ [dropStr 4 t]))
    else if errLine t then some (Except.error ("Tor control error: " ++ t))
    else if isData && !(t == "") then readRespGo fuel rest isData (acc ++ [t])
    else if startsWithStr t "AUTHCHALLENGE " then readRespGo fuel rest isData (acc ++ [t])
    else readRespGo fuel rest isData acc

/-- `read_response` on a stream of pending lines, with fuel. -/
def readResponse (fuel : Nat) (stream : List String) : Option (Except String (List String)) :=
  readRespGo fuel stream false []

/-! ### Circuit model: `TorControl::get_circuit_info` (src/main.rs:316-356) -/

/-- The `Circuit` record of src/main.rs:50-56. -/
structure Circuit where
  id : String
  status : String
  path : List String
  purpose : String
deriving DecidableEq

/-- `str::find(c)`: index of the first occurrence of a character. -/
def charIndexOf (c : Char) : List Char → Option Nat
  | [] => none
  | d :: t => if d == c then some 0 else (charIndexOf c t).map (· + 1)

/-- One path entry of the comma-separated path field (src/main.rs:333-339):
`s[1..idx]` when `~` occurs at byte `idx`, `s[1..]` otherwise.  `none`
models the panic of the byte-range slice when the entry is empty or starts
with `~` (the slice start 1 then exceeds the slice end). -/
def parsePathEntry (s : String) : Option String :=
  match charIndexOf '~' s.toList with
  | some idx =>
    if idx = 0 then none else some (String.mk ((s.toList.drop 1).take (idx - 1)))
  | none =>
    match s.toList with
    | [] => none
    | _ :: t => some (String.mk t)

/-- Remove every occurrence of `needle` from the character list, leftmost
first (`str::replace(needle, "")`); fuelled so it evaluates in the
kernel. -/
def removeAllSubGo (needle : List Char) : Nat → List Char → List Char
  | _, [] => []
  | 0, cs => cs
  | fuel + 1, c :: t =>
    if needle.isPrefixOf (c :: t) then removeAllSubGo needle fuel ((c :: t).drop needle.length)
    else c :: removeAllSubGo needle fuel t

/-- `s.replace(pat, "")` for a nonempty pattern. -/
def replaceRemove (s pat : String) : String :=
  String.mk (removeAllSubGo pat.toList s.toList.length s.toList)

/-- One iteration of the `for line in response` loop of `get_circuit_info`:
`some none` means the line is skipped, `some (some c)` that circuit `c` is
pushed, `none` that path parsing panicked. -/
def parseCircLine (line : String) : Option (Option Circuit) :=
  if startsWithStr line "circuit-status=" then some none
  else
    match splitWsStr line with
    | cid :: cstatus :: pathStr :: rest =>
      match (splitOnCharStr pathStr ',').mapM parsePathEntry with
      | none => none
      | some path =>
        let purpose :=
          match rest.find? (fun p => startsWithStr p "PURPOSE=") with
          | some p => replaceRemove p "PURPOSE="
          | none => "UNKNOWN"
        some (some { id := cid, status := cstatus, path := path, purpose := purpose })
    | _ => some none

/-- `get_circuit_info` applied to the content lines of the
`GETINFO circuit-status` reply; `none` models a panic while slicing a path
entry. -/
def getCircuitInfo : List String → Option (List Circuit)
  | [] => some []
  | line :: rest =>
    match parseCircLine line with
    | none => none
    | some none => getCircuitInfo rest
    | some (some c) => (getCircuitInfo rest).map (c :: ·)

/-! ### `TorControl::wait_for_circuits` (src/main.rs:389-398) -/

/-- The usability test of line 392:
`c.status == "BUILT" && c.purpose.contains("GENERAL")`. -/
def circuitUsable (c : Circuit) : Bool :=
  c.status == "BUILT" && hasSubStr c.purpose "GENERAL"

/-- The `for _ in 0..30` loop of `wait_for_circuits`.  `polls k` is the
circuit list returned by the `k`-th call to `get_circuit_info` (the model
abstracts the connection: each poll is assumed to parse successfully).
Returns the result together with the number of polls performed. -/
def waitGo (polls : Nat → List Circuit) : Nat → Nat → Except String Unit × Nat
  | i, 0 => (Except.error "Timeout waiting for circuits to be built", i)
  | i, remaining + 1 =>
    if (polls i).any circuitUsable then (Except.ok (), i + 1)
    else waitGo polls (i + 1) remaining

/-- `wait_for_circuits`: 30 polls, one per 1-second sleep. -/
def waitForCircuits (polls : Nat → List Circuit) : Except String Unit × Nat :=
  waitGo polls 0 30

/-! ### `TorControl::get_node_info` (src/main.rs:372-387) -/

/-- The `for line in response` loop of `get_node_info`: the first line
containing the substring `"r "` and splitting into more than 3 whitespace
fields yields `(parts[1], parts[3])`. -/
def nodeInfoScan : List String → Option (String × String)
  | [] => none
  | line :: rest =>
    if hasSubStr line "r " then
      let parts := splitWsStr line
      if 3 < parts.length then some (parts.getD 1 "", parts.getD 3 "")
      else nodeInfoScan rest
    else nodeInfoScan rest

/-- `get_node_info` applied to the content lines of the reply.  The
fallback is `(&node_id[..6], "??")`; `none` models the panic of the byte
slice `node_id[..6]` when the id is shorter than 6 bytes. -/
def getNodeInfo (nodeId : String) (response : List String) : Option (String × String) :=
  match nodeInfoScan response with
  | some p => some p
  | none =>
    if nodeId.toList.length < 6 then none
    else some (String.mk (nodeId.toList.take 6), "??")

/-! ### Authentication: `TorControl::authenticate` (src/main.rs:76-278)

The connection is modelled by `ConnIO`: the queue of replies that
successive `read_response` calls will deliver (each already parsed, an
`Except` as `read_response` produces), the trace of commands passed to
`send_command`, and the trace of log lines.  The environment `AuthEnv`
supplies the results of the external effects the function consumes: the
cookie-file read (`fs::read`), the random client nonce
(`rand::thread_rng`), and the HMAC-SHA256 primitive of the `hmac`/`sha2`
crates, taken as an opaque-but-pure function of key and message (the
claims proved below depend only on which inputs it is applied to and on
comparisons between its outputs, not on its internals). -/

/-- Connection state: pending replies, sent commands, emitted log lines. -/
structure ConnIO where
  replies : List (Except String (List String))
  sent : List String
  logs : List String

/-- External inputs of `authenticate`. -/
structure AuthEnv where
  readCookie : String → Except String (List Nat)
  clientNonce : List Nat
  hmac : List Nat → List Nat → List Nat

/-- Append one log line. -/
def addLog (io : ConnIO) (s : String) : ConnIO := { io with logs := io.logs ++ [s] }

/-- Append several log lines. -/
def addLogs (io : ConnIO) (ls : List String) : ConnIO := { io with logs := io.logs ++ ls }

/-- `send_command` (src/main.rs:280-283): record the command on the wire. -/
def sendCmd (cmd : String) (io : ConnIO) : ConnIO := { io with sent := io.sent ++ [cmd] }

/-- One `read_response()` call: deliver the next queued reply.  An
exhausted queue stands for a closed control channel. -/
def takeReply (io : ConnIO) : Except String (List String) × ConnIO :=
  match io.replies with
  | [] => (Except.error "IoError: control channel closed", io)
  | r :: rest => (r, { io with replies := rest })

/-- The UTF-8 bytes of an ASCII string (for the fixed HMAC key literals). -/
def strBytes (s : String) : List Nat := s.toList.map Char.toNat

/-- The HMAC key of src/main.rs:217. -/
def serverHmacKey : List Nat :=
  strBytes "Tor safe cookie authentication server-to-controller hash"

/-- The HMAC key of src/main.rs:237. -/
def clientHmacKey : List Nat :=
  strBytes "Tor safe cookie authentication controller-to-server hash"

/-- Lines 172-207 of src/main.rs: find the `SERVERHASH=` line of the
AUTHCHALLENGE reply, split it on single spaces, extract and hex-decode the
`SERVERHASH=`/`SERVERNONCE=` fields.  Returns `(server_hash, server_nonce)`
together with the log lines the extraction emits. -/
def parseChallenge (resp : List String) : Except String (List Nat × List Nat) × List String :=
  match resp.find? (fun l => hasSubStr l "SERVERHASH=") with
  | none =>
    (Except.error "Failed to get server nonce from AUTHCHALLENGE response",
     ["Failed to get server nonce from AUTHCHALLENGE response"])
  | some line =>
    let parts := splitOnCharStr line ' '
    let logs1 := ["Found AUTHCHALLENGE line: " ++ line, "Split parts: " ++ fmtStrList parts]
    match parts.find? (fun p => startsWithStr p "SERVERHASH=") with
    | none => (Except.error "Missing SERVERHASH in response", logs1)
    | some ph =>
      match parts.find? (fun p => startsWithStr p "SERVERNONCE=") with
      | none => (Except.error "Missing SERVERNONCE in response", logs1)
      | some pn =>
        let serverHashStr := dropStr 11 ph
        let serverNonceStr := dropStr 12 pn
        let logs2 := logs1 ++ ["Server hash: " ++ serverHashStr,
                               "Server nonce: " ++ serverNonceStr]
        match hexDecode serverNonceStr, hexDecode serverHashStr with
        | some nonce, some hash =>
          (Except.ok (hash, nonce),
           logs2 ++ ["Decoded server nonce length: " ++ natRepr nonce.length,
                     "Decoded server hash length: " ++ natRepr hash.length])
        | _, _ =>
          (Except.error "Failed to decode server nonce or hash",
           logs2 ++ ["Failed to decode server nonce or hash"])

/-- Lines 107-139: the COOKIE branch.  `some r` means `authenticate`
returns `r`; `none` means the branch failed and control falls through. -/
def cookieBranch (env : AuthEnv) (path : String) (io : ConnIO) :
    Option (Except String Unit) × ConnIO :=
  let io := addLog io "Attempting COOKIE authentication"
  match env.readCookie path with
  | Except.error e =>
    (some (Except.error ("Failed to read cookie file: " ++ e)),
     addLog io ("Failed to read cookie file: " ++ e))
  | Except.ok cookie =>
    let io := addLogs io ["Successfully read cookie file, length: " ++ natRepr cookie.length,
                          "Cookie data (hex): " ++ hexEncodeLower cookie]
    let cmd := "AUTHENTICATE " ++ strToUpper (hexEncodeLower cookie)
    let io := addLog io ("Sending authentication command: " ++ cmd)
    let io := sendCmd cmd io
    match takeReply io with
    | (Except.error e, io) => (some (Except.error e), io)
    | (Except.ok resp, io) =>
      let io := addLog io ("Authentication response: " ++ fmtStrList resp)
      if resp.contains "OK" then
        (some (Except.ok ()), addLog io "Successfully authenticated with COOKIE")
      else
        (none, addLog io ("COOKIE authentication failed, response: " ++ fmtStrList resp))

/-- Lines 142-263: the SAFECOOKIE branch. -/
def safecookieBranch (env : AuthEnv) (path : String) (io : ConnIO) :
    Option (Except String Unit) × ConnIO :=
  let io := addLog io "Attempting SAFECOOKIE authentication"
  match env.readCookie path with
  | Except.error e =>
    (some (Except.error ("Failed to read cookie file: " ++ e)),
     addLog io ("Failed to read cookie file: " ++ e))
  | Except.ok cookie =>
    let io := addLogs io ["Successfully read cookie file, length: " ++ natRepr cookie.length,
                          "Cookie data (hex): " ++ hexEncodeLower cookie]
    let nonceHex := strToUpper (hexEncodeLower env.clientNonce)
    let io := addLog io ("Generated client nonce (hex): " ++ nonceHex)
    let cmd := "AUTHCHALLENGE SAFECOOKIE " ++ nonceHex
    let io := addLog io ("Sending AUTHCHALLENGE command: " ++ cmd)
    let io := sendCmd cmd io
    match takeReply io with
    | (Except.error e, io) => (some (Except.error e), io)
    | (Except.ok resp, io) =>
      let io := addLog io ("AUTHCHALLENGE response: " ++ fmtStrList resp)
      match parseChallenge resp with
      | (Except.error e, plogs) => (some (Except.error e), addLogs io plogs)
      | (Except.ok (serverHash, serverNonce), plogs) =>
        let io := addLogs io plogs
        let authInput := cookie ++ env.clientNonce ++ serverNonce
        let io := addLogs io ["Auth input length: " ++ natRepr authInput.length,
                              "Auth input (hex): " ++ strToUpper (hexEncodeLower authInput)]
        let computed := env.hmac serverHmacKey authInput
        let io := addLogs io
          ["Computed server hash (hex): " ++ strToUpper (hexEncodeLower computed),
           "Received server hash (hex): " ++ strToUpper (hexEncodeLower serverHash)]
        if computed = serverHash then
          let io := addLog io "Server hash verified successfully"
          let clientHash := env.hmac clientHmacKey authInput
          let io := addLog io ("Client hash (hex): " ++ strToUpper (hexEncodeLower clientHash))
          let cmd2 := "AUTHENTICATE " ++ strToUpper (hexEncodeLower clientHash)
          let io := addLog io ("Sending authentication command: " ++ cmd2)
          let io := sendCmd cmd2 io
          match takeReply io with
          | (Except.error e, io) => (some (Except.error e), io)
          | (Except.ok resp2, io) =>
            let io := addLog io ("Authentication response: " ++ fmtStrList resp2)
            if resp2.contains "OK" then
              (some (Except.ok ()), addLog io "Successfully authenticated with SAFECOOKIE")
            else
              (none,
               addLog io ("SAFECOOKIE authentication failed, response: " ++ fmtStrList resp2))
        else
          (some (Except.error "Server hash verification failed"),
           addLog io "Server hash verification failed")

/-- Lines 267-275: the NULL branch. -/
def nullBranch (env : AuthEnv) (io : ConnIO) : Option (Except String Unit) × ConnIO :=
  let io := addLog io "Attempting null authentication"
  let io := sendCmd "AUTHENTICATE" io
  match takeReply io with
  | (Except.error e, io) => (some (Except.error e), io)
  | (Except.ok resp, io) =>
    if resp.contains "OK" then
      (some (Except.ok ()), addLog io "Successfully authenticated with null authentication")
    else (none, io)

/-- Lines 101-277 of `authenticate`, after the `PROTOCOLINFO` reply has
been parsed into the advertised `methods` and the optional cookie-file
path. -/
def authenticateCore (methods : List String) (cookieFile : Option String)
    (env : AuthEnv) (io : ConnIO) : Except String Unit × ConnIO :=
  let io := addLog io ("Supported auth methods: " ++ fmtStrList methods)
  let io := match cookieFile with
    | some f => addLog io ("Cookie file: " ++ f)
    | none => io
  let step1 := match cookieFile with
    | some path => if methods.contains "COOKIE" then cookieBranch env path io else (none, io)
    | none => (none, io)
  match step1 with
  | (some r, io) => (r, io)
  | (none, io) =>
    let step2 := match cookieFile with
      | some path =>
        if methods.contains "SAFECOOKIE" then safecookieBranch env path io else (none, io)
      | none => (none, io)
    match step2 with
    | (some r, io) => (r, io)
    | (none, io) =>
      let step3 :=
        if methods.contains "NULL" || methods.isEmpty then nullBranch env io else (none, io)
      match step3 with
      | (some r, io) => (r, io)
      | (none, io) => (Except.error "Failed to authenticate with Tor control port", io)

/-- Lines 82-99: parse the `PROTOCOLINFO` reply into the advertised
method list and the optional cookie-file path (a fold over the reply
lines; a later `AUTH METHODS=` line overwrites an earlier one, exactly as
the Rust loop reassigns). -/
def parseProtoLine (acc : List String × Option String) (line : String) :
    List String × Option String :=
  if hasSubStr line "AUTH METHODS=" then
    let ms := match splitNth1 "METHODS=" line with
      | some rest2 => (splitOnCharStr rest2 ',').map (fun s => trimQuoteSpace (trimStr s))
      | none => acc.1
    let cf := if hasSubStr line "COOKIEFILE=" then
        match splitNth1 "COOKIEFILE=\"" line with
        | some f => some (trimEndQuote f)
        | none => acc.2
      else acc.2
    (ms, cf)
  else acc

/-- Lines 82-99. -/
def parseProtoInfo (lines : List String) : List String × Option String :=
  lines.foldl parseProtoLine ([], none)

/-- `authenticate` (src/main.rs:76-278): issue `PROTOCOLINFO`, parse the
advertised methods, then run the three-branch state machine. -/
def authenticate (env : AuthEnv) (io : ConnIO) : Except String Unit × ConnIO :=
  let io := sendCmd "PROTOCOLINFO" io
  match takeReply io with
  | (Except.error e, io) => (Except.error e, io)
  | (Except.ok protoInfo, io) =>
    let io := addLog io ("Protocol info response: " ++ fmtStrList protoInfo)
    let (methods, cookieFile) := parseProtoInfo protoInfo
    authenticateCore methods cookieFile env io

/-! ## Helper lemmas -/

theorem isPrefixOf_false_of_head_ne {a b : Char} {as bs cs : List Char}
    (hab : a ≠ b) (h : List.isPrefixOf (a :: as) cs = true) :
    List.isPrefixOf (b :: bs) cs = false := by
  cases cs with
  | nil => simp [List.isPrefixOf] at h
  | cons c t =>
    have h1 : a = c := by
      simp only [List.isPrefixOf, Bool.and_eq_true, beq_iff_eq] at h
      exact h.1
    have hbc : (b == c) = false := by
      rw [beq_eq_false_iff_ne]
      intro hbceq
      exact hab (by rw [h1, hbceq])
    simp [List.isPrefixOf, hbc]

theorem readRespGo_nil (fuel : Nat) : ∀ (isData : Bool) (acc : List String),
    readRespGo fuel [] isData acc = none := by
  induction fuel with
  | zero => intro _ _; rfl
  | succ n ih =>
    intro isData acc
    cases isData
    · exact ih false acc
    · exact ih true acc

/-! ## Claim C6 -/

/-- C6: the claim says `read_reply` fails with an `IoError` in finitely
many steps when the control channel closes before a terminating status
line.  The code does not: at EOF `read_line` returns `Ok(0)` with an empty
line, which matches none of the loop's branches, so the loop spins
forever.  In the fuelled model, no amount of fuel makes the parser return
once the stream is exhausted — first conjunct for an arbitrary parser
state, second conjunct for the concrete stream that closes after the
non-terminal line `250-A`. -/
theorem readResponse_eof_loops_forever :
    (∀ (fuel : Nat) (isData : Bool) (acc : List String),
        readRespGo fuel [] isData acc = none) ∧
    (∀ fuel : Nat, readResponse fuel ["250-A"] = none) := by
  refine ⟨fun fuel => readRespGo_nil fuel, fun fuel => ?_⟩
  cases fuel with
  | zero => rfl
  | succ n => exact readRespGo_nil n false _

/-! ## Claim C3 -/

/-- C3 counterexample: for a `250+` raw-data block terminated by a lone
`.` line followed by `250 OK`, the claim says the returned content lines
exclude the `.` terminator line.  They do not: the `.` line is non-empty,
so the `is_data && !trimmed.is_empty()` branch (src/main.rs:306) pushes it
like any other data line. -/
theorem readResponse_keeps_dot_line :
    readResponse 6 ["250+DATA", "x", "y", ".", "250 OK"] =
      some (Except.ok ["DATA", "x", "y", ".", "OK"]) ∧
    "." ∈ ["DATA", "x", "y", ".", "OK"] := ⟨rfl, by simp⟩

/-- A raw-data line: nonempty after trimming and matching none of the
status-prefix patterns checked by `read_response`. -/
def rawDataLine (d : String) : Bool :=
  !(trimStr d == "") && !(startsWithStr (trimStr d) "250+") &&
  !(startsWithStr (trimStr d) "250-") && !(startsWithStr (trimStr d) "250 ") &&
  !(errLine (trimStr d))

theorem readRespGo_data_block (ds : List String)
    (h : ∀ d ∈ ds, rawDataLine d = true) :
    ∀ (fuel : Nat) (acc : List String), ds.length < fuel →
      readRespGo fuel (ds ++ ["250 OK"]) true acc =
        some (Except.ok (acc ++ ds.map trimStr ++ ["OK"])) := by
  induction ds with
  | nil =>
    intro fuel acc hf
    cases fuel with
    | zero => omega
    | succ n => simp +decide [readRespGo]
  | cons d dt ih =>
    intro fuel acc hf
    cases fuel with
    | zero => omega
    | succ n =>
      have hd := h d (by simp)
      simp only [rawDataLine, Bool.and_eq_true, Bool.not_eq_true'] at hd
      obtain ⟨⟨⟨⟨hd0, hd1⟩, hd2⟩, hd3⟩, hd4⟩ := hd
      have hdt : ∀ x ∈ dt, rawDataLine x = true := fun x hx => h x (by simp [hx])
      show readRespGo (n + 1) (d :: (dt ++ ["250 OK"])) true acc = _
      simp only [readRespGo]
      simp only [hd0, hd1, hd2, hd3, hd4, Bool.false_eq_true, if_false, Bool.not_false,
        Bool.true_and, if_true]
      rw [ih hdt n (acc ++ [trimStr d]) (by simp at hf; omega)]
      simp

/-- C3 (amended): `read_reply` reconstructs the content lines: `250 OK`
yields `["OK"]`; `250-A`,`250-B`,`250 C` yields `["A","B","C"]`; a `250+`
raw-data block followed by data lines and `250 OK` yields the header
datum, every (trimmed) data line — including the lone `.` terminator line,
which the code does not strip — and the terminal `OK`. -/
theorem readResponse_content_lines :
    readResponse 2 ["250 OK"] = some (Except.ok ["OK"]) ∧
    readResponse 4 ["250-A", "250-B", "250 C"] = some (Except.ok ["A", "B", "C"]) ∧
    ∀ ds : List String, (∀ d ∈ ds, rawDataLine d = true) →
      readResponse (ds.length + 2) ("250+DATA" :: (ds ++ ["250 OK"])) =
        some (Except.ok ("DATA" :: (ds.map trimStr ++ ["OK"]))) := by
  refine ⟨rfl, rfl, fun ds h => ?_⟩
  have h2 := readRespGo_data_block ds h (ds.length + 1) ["DATA"] (by omega)
  show readRespGo (ds.length + 1) (ds ++ ["250 OK"]) true ["DATA"] = _
  rw [h2]
  simp

/-- Witness for C3's amended theorem at a concrete data block whose lines
include the lone `.` terminator. -/
theorem readResponse_content_lines_witness :
    (∀ d ∈ ["x", "y", "."], rawDataLine d = true) ∧
    readResponse 5 ["250+DATA", "x", "y", ".", "250 OK"] =
      some (Except.ok ["DATA", "x", "y", ".", "OK"]) := by
  refine ⟨by decide, ?_⟩
  have := readResponse_content_lines.2.2 ["x", "y", "."] (by decide)
  simpa using this

/-! ## Claim C4 -/

/-- A line that is neither a `250 ` terminal line nor one of the
`515 `/`551 `/`550 ` error lines (it may be a `250-`/`250+` continuation,
a data line, or junk). -/
def nonTermLine (p : String) : Bool :=
  !(startsWithStr (trimStr p) "250 ") && !(errLine (trimStr p))

theorem readRespGo_err (l : String) (rest : List String)
    (h250p : startsWithStr (trimStr l) "250+" = false)
    (h250m : startsWithStr (trimStr l) "250-" = false)
    (h250 : startsWithStr (trimStr l) "250 " = false)
    (herr : errLine (trimStr l) = true) :
    ∀ (pre : List String), (∀ p ∈ pre, nonTermLine p = true) →
      ∀ (fuel : Nat) (isData : Bool) (acc : List String), pre.length < fuel →
        readRespGo fuel (pre ++ l :: rest) isData acc =
          some (Except.error ("Tor control error: " ++ trimStr l)) := by
  intro pre
  induction pre with
  | nil =>
    intro _ fuel isData acc hf
    cases fuel with
    | zero => omega
    | succ n =>
      show readRespGo (n + 1) (l :: rest) isData acc = _
      simp only [readRespGo]
      simp [h250p, h250m, h250, herr]
  | cons p pt ih =>
    intro hpre fuel isData acc hf
    cases fuel with
    | zero => omega
    | succ n =>
      have hp := hpre p (by simp)
      simp only [nonTermLine, Bool.and_eq_true, Bool.not_eq_true'] at hp
      obtain ⟨hp1, hp2⟩ := hp
      have hpt : ∀ x ∈ pt, nonTermLine x = true := fun x hx => hpre x (by simp [hx])
      have hn : pt.length < n := by simp at hf; omega
      show readRespGo (n + 1) (p :: (pt ++ l :: rest)) isData acc = _
      simp only [readRespGo]
      split
      · exact ih hpt n true _ hn
      · split
        · exact ih hpt n isData _ hn
        · split
          · next h3 => rw [hp1] at h3; exact absurd h3 (by simp)
          · split
            · next h4 => rw [hp2] at h4; exact absurd h4 (by simp)
            · split
              · exact ih hpt n isData _ hn
              · split
                · exact ih hpt n isData _ hn
                · exact ih hpt n isData _ hn

/-- C4: any reply whose terminal line (the first line matching a terminal
or error status pattern) begins with `515 `, `550 ` or `551 ` makes
`read_reply` return the protocol error carrying that whole line (code and
message), and in particular is never returned as a successful reply. -/
theorem readResponse_error_reply (code : String)
    (hc : code = "515 " ∨ code = "550 " ∨ code = "551 ")
    (pre : List String) (l : String) (rest : List String)
    (hpre : ∀ p ∈ pre, nonTermLine p = true)
    (hl : startsWithStr (trimStr l) code = true)
    (fuel : Nat) (hf : pre.length < fuel) :
    readResponse fuel (pre ++ l :: rest) =
      some (Except.error ("Tor control error: " ++ trimStr l)) := by
  have h52 : ('5' : Char) ≠ '2' := by decide
  rcases hc with rfl | rfl | rfl
  · have hl' : List.isPrefixOf ['5', '1', '5', ' '] (trimStr l).toList = true := hl
    have h250p : startsWithStr (trimStr l) "250+" = false :=
      isPrefixOf_false_of_head_ne h52 hl'
    have h250m : startsWithStr (trimStr l) "250-" = false :=
      isPrefixOf_false_of_head_ne h52 hl'
    have h250 : startsWithStr (trimStr l) "250 " = false :=
      isPrefixOf_false_of_head_ne h52 hl'
    have herr : errLine (trimStr l) = true := by simp [errLine, hl]
    exact readRespGo_err l rest h250p h250m h250 herr pre hpre fuel false [] hf
  · have hl' : List.isPrefixOf ['5', '5', '0', ' '] (trimStr l).toList = true := hl
    have h250p : startsWithStr (trimStr l) "250+" = false :=
      isPrefixOf_false_of_head_ne h52 hl'
    have h250m : startsWithStr (trimStr l) "250-" = false :=
      isPrefixOf_false_of_head_ne h52 hl'
    have h250 : startsWithStr (trimStr l) "250 " = false :=
      isPrefixOf_false_of_head_ne h52 hl'
    have herr : errLine (trimStr l) = true := by simp [errLine, hl]
    exact readRespGo_err l rest h250p h250m h250 herr pre hpre fuel false [] hf
  · have hl' : List.isPrefixOf ['5', '5', '1', ' '] (trimStr l).toList = true := hl
    have h250p : startsWithStr (trimStr l) "250+" = false :=
      isPrefixOf_false_of_head_ne h52 hl'
    have h250m : startsWithStr (trimStr l) "250-" = false :=
      isPrefixOf_false_of_head_ne h52 hl'
    have h250 : startsWithStr (trimStr l) "250 " = false :=
      isPrefixOf_false_of_head_ne h52 hl'
    have herr : errLine (trimStr l) = true := by simp [errLine, hl]
    exact readRespGo_err l rest h250p h250m h250 herr pre hpre fuel false [] hf

/-- Witness for C4 at a concrete error reply. -/
theorem readResponse_error_reply_witness :
    (∀ p ∈ ["250-A"], nonTermLine p = true) ∧
    readResponse 2 ["250-A", "515 Argument error"] =
      some (Except.error "Tor control error: 515 Argument error") := by
  refine ⟨by decide, ?_⟩
  have := readResponse_error_reply "515 " (Or.inl rfl) ["250-A"] "515 Argument error" []
    (by decide) (by decide) 2 (by decide)
  simpa using this

/-! ## Claim C8 -/

theorem waitGo_timeout (polls : Nat → List Circuit) :
    ∀ (remaining i : Nat),
      (∀ j, j < remaining → (polls (i + j)).any circuitUsable = false) →
      waitGo polls i remaining =
        (Except.error "Timeout waiting for circuits to be built", i + remaining) := by
  intro remaining
  induction remaining with
  | zero => intro i h; simp [waitGo]
  | succ m ih =>
    intro i h
    have h0 : (polls i).any circuitUsable = false := by simpa using h 0 (by omega)
    have hshift : ∀ j, j < m → (polls (i + 1 + j)).any circuitUsable = false := by
      intro j hj
      have := h (j + 1) (by omega)
      rw [show i + (j + 1) = i + 1 + j by omega] at this
      exact this
    show waitGo polls i (m + 1) = _
    simp only [waitGo, h0, Bool.false_eq_true, if_false]
    rw [ih (i + 1) hshift, show i + 1 + m = i + (m + 1) by omega]

theorem waitGo_success (polls : Nat → List Circuit) :
    ∀ (remaining k i : Nat), k < remaining →
      (∀ j, j < k → (polls (i + j)).any circuitUsable = false) →
      (polls (i + k)).any circuitUsable = true →
      waitGo polls i remaining = (Except.ok (), i + k + 1) := by
  intro remaining
  induction remaining with
  | zero => intro k i hk; omega
  | succ m ih =>
    intro k i hk hbefore hhit
    cases k with
    | zero =>
      have h0 : (polls i).any circuitUsable = true := by simpa using hhit
      show waitGo polls i (m + 1) = _
      simp [waitGo, h0]
    | succ k0 =>
      have h0 : (polls i).any circuitUsable = false := by simpa using hbefore 0 (by omega)
      have hshift : ∀ j, j < k0 → (polls (i + 1 + j)).any circuitUsable = false := by
        intro j hj
        have := hbefore (j + 1) (by omega)
        rw [show i + (j + 1) = i + 1 + j by omega] at this
        exact this
      have hhit' : (polls (i + 1 + k0)).any circuitUsable = true := by
        rw [show i + 1 + k0 = i + (k0 + 1) by omega]
        exact hhit
      show waitGo polls i (m + 1) = _
      simp only [waitGo, h0, Bool.false_eq_true, if_false]
      rw [ih k0 (i + 1) (by omega) hshift hhit', show i + 1 + k0 + 1 = i + (k0 + 1) + 1 by omega]

/-- C8: `wait_for_circuits` returns success as soon as a poll sees a
circuit with status `BUILT` and a purpose containing `GENERAL` — after
`k + 1` polls when poll `k` is the first to see one — and returns the
timeout error after exactly 30 polls when no poll within the budget ever
does. -/
theorem waitForCircuits_spec (polls : Nat → List Circuit) :
    (∀ k, k < 30 → (∀ j, j < k → (polls j).any circuitUsable = false) →
      (polls k).any circuitUsable = true →
      waitForCircuits polls = (Except.ok (), k + 1)) ∧
    ((∀ k, k < 30 → (polls k).any circuitUsable = false) →
      waitForCircuits polls =
        (Except.error "Timeout waiting for circuits to be built", 30)) := by
  constructor
  · intro k hk hb ha
    have := waitGo_success polls 30 k 0 hk (by simpa using hb) (by simpa using ha)
    simpa [waitForCircuits] using this
  · intro h
    have := waitGo_timeout polls 30 0 (fun j hj => by simpa using h j hj)
    simpa [waitForCircuits] using this

/-- Witness for C8: a first usable circuit on the third poll gives success
after 3 polls; the all-unusable poll stream times out at exactly 30. -/
theorem waitForCircuits_spec_witness :
    waitForCircuits
        (fun n => if n = 2 then
          [{ id := "1", status := "BUILT", path := [], purpose := "GENERAL" }] else []) =
      (Except.ok (), 3) ∧
    waitForCircuits (fun _ => []) =
      (Except.error "Timeout waiting for circuits to be built", 30) := by
  constructor
  · exact (waitForCircuits_spec _).1 2 (by omega)
      (by intro j hj; interval_cases j <;> decide) (by decide)
  · exact (waitForCircuits_spec _).2 (fun k hk => by decide)

/-! ## Claim C9 -/

/-- C9: the circuit-status line
`CIRC1 BUILT $AAAA~nodeA,$BBBB~nodeB PURPOSE=GENERAL` parses to the
expected `Circuit` (leading `$` stripped, entries cut at `~`), a line
without a `PURPOSE=` token defaults the purpose to `UNKNOWN`, and any
line with fewer than 3 whitespace-separated fields is silently skipped. -/
theorem getCircuitInfo_spec :
    getCircuitInfo ["CIRC1 BUILT $AAAA~nodeA,$BBBB~nodeB PURPOSE=GENERAL"] =
      some [{ id := "CIRC1", status := "BUILT", path := ["AAAA", "BBBB"],
              purpose := "GENERAL" }] ∧
    getCircuitInfo ["CIRC3 BUILT $AAAA~nodeA"] =
      some [{ id := "CIRC3", status := "BUILT", path := ["AAAA"],
              purpose := "UNKNOWN" }] ∧
    ∀ (line : String) (resp : List String), (splitWsStr line).length < 3 →
      getCircuitInfo (line :: resp) = getCircuitInfo resp := by
  refine ⟨rfl, rfl, fun line resp h => ?_⟩
  have hskip : parseCircLine line = some none := by
    by_cases hcs : startsWithStr line "circuit-status=" = true
    · simp [parseCircLine, hcs]
    · rcases hws : splitWsStr line with _ | ⟨a, _ | ⟨b, _ | ⟨c, t3⟩⟩⟩
      · simp [parseCircLine, hcs, hws]
      · simp [parseCircLine, hcs, hws]
      · simp [parseCircLine, hcs, hws]
      · rw [hws] at h; simp at h; omega
  simp [getCircuitInfo, hskip]

/-- Witness for C9's skip clause at a concrete two-field line. -/
theorem getCircuitInfo_spec_witness :
    (splitWsStr "X Y").length < 3 ∧ getCircuitInfo ["X Y"] = some [] := by
  exact ⟨by decide, (getCircuitInfo_spec.2.2 "X Y" [] (by decide)).trans rfl⟩

/-! ## Claim C10 -/

/-- C10: path-entry parsing is total exactly on entries that are nonempty
and do not start with `~`: for an empty entry (`s[1..]` with byte length 0)
or an entry whose `~` is at byte 0 (`s[1..0]`), the slice bounds are out of
range and the Rust code panics — modelled by `none` — and the panic
propagates: a circuit-status line containing such a path entry makes
`get_circuit_info` panic instead of skipping the entry or erroring. -/
theorem parsePathEntry_panics :
    (∀ s : String, parsePathEntry s = none ↔
      (s.toList = [] ∨ s.toList.head? = some '~')) ∧
    getCircuitInfo ["CIRC2 BUILT $AAAA~nodeA,~bad PURPOSE=GENERAL"] = none ∧
    getCircuitInfo ["CIRC2 BUILT $AAAA~nodeA,,$BBBB~b PURPOSE=GENERAL"] = none := by
  refine ⟨?_, rfl, rfl⟩
  intro s
  rcases s with ⟨cs⟩
  cases cs with
  | nil => simp [parsePathEntry, charIndexOf]
  | cons c t =>
    by_cases hc : c = '~'
    · subst hc
      simp [parsePathEntry, charIndexOf]
    · have hcb : (c == '~') = false := by rw [beq_eq_false_iff_ne]; exact hc
      have hstep : charIndexOf '~' (c :: t) = (charIndexOf '~' t).map (· + 1) := by
        simp [charIndexOf, hcb]
      show parsePathEntry (String.mk (c :: t)) = none ↔ _
      rw [parsePathEntry]
      simp only [show (String.mk (c :: t)).toList = c :: t from rfl]
      rw [hstep]
      cases charIndexOf '~' t with
      | none => simp [hc]
      | some k => simp [hc]

/-! ## Claim C7 -/

/-- C7 counterexample: the claim says that for every node id, on a missing
router-descriptor line, `get_node_info` returns the fallback pair (first 6
characters of the id, `"??"`).  For an id shorter than 6 bytes the fallback
expression `&node_id[..6]` is an out-of-range byte slice and the call
panics (modelled by `none`) instead of returning any pair. -/
theorem getNodeInfo_short_id_panics : getNodeInfo "" [] = none := rfl

/-- C7 (amended): for every node id of byte length at least 6, the call
never fails: it returns the fallback `(first 6 characters, "??")` whenever
the scan finds no line containing `"r "` with more than 3 whitespace
fields, and returns `(parts[1], parts[3])` — the nickname and country
fields — when the first reply line is such a line. -/
theorem getNodeInfo_spec (nodeId : String) (response : List String)
    (h : 6 ≤ nodeId.toList.length) :
    (getNodeInfo nodeId response).isSome = true ∧
    (nodeInfoScan response = none →
      getNodeInfo nodeId response = some (String.mk (nodeId.toList.take 6), "??")) ∧
    (∀ line rest, response = line :: rest → hasSubStr line "r " = true →
      3 < (splitWsStr line).length →
      getNodeInfo nodeId response =
        some ((splitWsStr line).getD 1 "", (splitWsStr line).getD 3 "")) := by
  have hlen : ¬ nodeId.toList.length < 6 := by omega
  have hfall : (if nodeId.toList.length < 6 then none else
      some (String.mk (nodeId.toList.take 6), "??")) =
      some (String.mk (nodeId.toList.take 6), "??") := if_neg hlen
  refine ⟨?_, ?_, ?_⟩
  · unfold getNodeInfo
    cases hscan : nodeInfoScan response with
    | some p => rfl
    | none => rw [hfall]; rfl
  · intro hscan
    unfold getNodeInfo
    rw [hscan, hfall]
  · intro line rest hresp hr hlen3
    subst hresp
    have hscan : nodeInfoScan (line :: rest) =
        some ((splitWsStr line).getD 1 "", (splitWsStr line).getD 3 "") := by
      simp [nodeInfoScan, hr, hlen3]
    simp [getNodeInfo, hscan]

/-- Witness for C7's amended theorem at a concrete id and reply. -/
theorem getNodeInfo_spec_witness :
    6 ≤ ("ABCDEFG".toList.length) ∧
    getNodeInfo "ABCDEFG" ["r nick fp cc more"] = some ("nick", "cc") := by
  refine ⟨by decide, ?_⟩
  have := (getNodeInfo_spec "ABCDEFG" ["r nick fp cc more"] (by decide)).2.2
    "r nick fp cc more" [] rfl (by decide) (by decide)
  simpa using this

/-! ## Authentication: branch evaluation lemmas -/

theorem takeReply_snd_sent (io : ConnIO) : (takeReply io).2.sent = io.sent := by
  rcases io with ⟨rs, st, lg⟩
  cases rs <;> rfl

theorem takeReply_snd_logs (io : ConnIO) : (takeReply io).2.logs = io.logs := by
  rcases io with ⟨rs, st, lg⟩
  cases rs <;> rfl

theorem cookieBranch_eval (env : AuthEnv) (path : String) (cookie : List Nat)
    (l : List String) (rest : List (Except String (List String))) (st lg : List String)
    (hr : env.readCookie path = Except.ok cookie) :
    (cookieBranch env path ⟨Except.ok l :: rest, st, lg⟩).1 =
      (if l.contains "OK" then some (Except.ok ()) else none) ∧
    (cookieBranch env path ⟨Except.ok l :: rest, st, lg⟩).2.replies = rest ∧
    (cookieBranch env path ⟨Except.ok l :: rest, st, lg⟩).2.sent =
      st ++ ["AUTHENTICATE " ++ strToUpper (hexEncodeLower cookie)] ∧
    ∃ lg2, (cookieBranch env path ⟨Except.ok l :: rest, st, lg⟩).2.logs = lg ++ lg2 := by
  unfold cookieBranch
  rw [hr]
  simp only [addLog, addLogs, sendCmd, takeReply]
  refine ⟨?_, ?_, ?_, ?_⟩
  · split <;> simp_all
  · split <;> simp_all
  · split <;> simp_all
  · split
    · exact ⟨_, by simp; try rfl⟩
    · exact ⟨_, by simp; try rfl⟩

theorem safecookieBranch_parse_error (env : AuthEnv) (path : String) (cookie : List Nat)
    (resp : List String) (e : String) (rest : List (Except String (List String)))
    (st lg : List String)
    (hr : env.readCookie path = Except.ok cookie)
    (hpc : (parseChallenge resp).1 = Except.error e) :
    (safecookieBranch env path ⟨Except.ok resp :: rest, st, lg⟩).1 =
      some (Except.error e) ∧
    (safecookieBranch env path ⟨Except.ok resp :: rest, st, lg⟩).2.sent =
      st ++ ["AUTHCHALLENGE SAFECOOKIE " ++ strToUpper (hexEncodeLower env.clientNonce)] := by
  rcases hq : parseChallenge resp with ⟨pres, plogs⟩
  rw [hq] at hpc
  simp only at hpc
  subst hpc
  unfold safecookieBranch
  rw [hr]
  simp only [addLog, addLogs, sendCmd, takeReply]
  rw [hq]
  simp

theorem safecookieBranch_mismatch (env : AuthEnv) (path : String) (cookie : List Nat)
    (resp : List String) (sh sn : List Nat) (rest : List (Except String (List String)))
    (st lg : List String)
    (hr : env.readCookie path = Except.ok cookie)
    (hpc : (parseChallenge resp).1 = Except.ok (sh, sn))
    (hne : env.hmac serverHmacKey (cookie ++ env.clientNonce ++ sn) ≠ sh) :
    (safecookieBranch env path ⟨Except.ok resp :: rest, st, lg⟩).1 =
      some (Except.error "Server hash verification failed") ∧
    (safecookieBranch env path ⟨Except.ok resp :: rest, st, lg⟩).2.sent =
      st ++ ["AUTHCHALLENGE SAFECOOKIE " ++ strToUpper (hexEncodeLower env.clientNonce)] := by
  rcases hq : parseChallenge resp with ⟨pres, plogs⟩
  rw [hq] at hpc
  simp only at hpc
  subst hpc
  unfold safecookieBranch
  rw [hr]
  simp only [addLog, addLogs, sendCmd, takeReply]
  rw [hq]
  simp only
  rw [if_neg hne]
  exact ⟨rfl, rfl⟩

theorem safecookieBranch_verified_sent (env : AuthEnv) (path : String) (cookie : List Nat)
    (resp : List String) (sh sn : List Nat) (rest : List (Except String (List String)))
    (st lg : List String)
    (hr : env.readCookie path = Except.ok cookie)
    (hpc : (parseChallenge resp).1 = Except.ok (sh, sn))
    (heq : env.hmac serverHmacKey (cookie ++ env.clientNonce ++ sn) = sh) :
    (safecookieBranch env path ⟨Except.ok resp :: rest, st, lg⟩).2.sent =
      st ++ ["AUTHCHALLENGE SAFECOOKIE " ++ strToUpper (hexEncodeLower env.clientNonce),
        "AUTHENTICATE " ++ strToUpper (hexEncodeLower
          (env.hmac clientHmacKey (cookie ++ env.clientNonce ++ sn)))] := by
  rcases hq : parseChallenge resp with ⟨pres, plogs⟩
  rw [hq] at hpc
  simp only at hpc
  subst hpc
  unfold safecookieBranch
  rw [hr]
  simp only [addLog, addLogs, sendCmd, takeReply]
  rw [hq]
  simp only
  rw [if_pos heq]
  cases rest with
  | nil => simp
  | cons r rest2 =>
    cases r with
    | error e => simp
    | ok l2 =>
      simp only
      split <;> simp

theorem safecookieBranch_verified_eval (env : AuthEnv) (path : String) (cookie : List Nat)
    (resp l2 : List String) (sh sn : List Nat) (rest : List (Except String (List String)))
    (st lg : List String)
    (hr : env.readCookie path = Except.ok cookie)
    (hpc : (parseChallenge resp).1 = Except.ok (sh, sn))
    (heq : env.hmac serverHmacKey (cookie ++ env.clientNonce ++ sn) = sh) :
    (safecookieBranch env path ⟨Except.ok resp :: Except.ok l2 :: rest, st, lg⟩).1 =
      (if l2.contains "OK" then some (Except.ok ()) else none) ∧
    (safecookieBranch env path ⟨Except.ok resp :: Except.ok l2 :: rest, st, lg⟩).2.replies =
      rest ∧
    ∃ lg2, (safecookieBranch env path
      ⟨Except.ok resp :: Except.ok l2 :: rest, st, lg⟩).2.logs = lg ++ lg2 := by
  rcases hq : parseChallenge resp with ⟨pres, plogs⟩
  rw [hq] at hpc
  simp only at hpc
  subst hpc
  unfold safecookieBranch
  rw [hr]
  simp only [addLog, addLogs, sendCmd, takeReply]
  rw [hq]
  simp only
  rw [if_pos heq]
  refine ⟨?_, ?_, ?_⟩
  · split <;> simp_all
  · split <;> simp_all
  · split
    · exact ⟨_, by simp; try rfl⟩
    · exact ⟨_, by simp; try rfl⟩

theorem nullBranch_eval (env : AuthEnv) (l : List String)
    (rest : List (Except String (List String))) (st lg : List String) :
    (nullBranch env ⟨Except.ok l :: rest, st, lg⟩).1 =
      (if l.contains "OK" then some (Except.ok ()) else none) ∧
    (nullBranch env ⟨Except.ok l :: rest, st, lg⟩).2.replies = rest ∧
    (nullBranch env ⟨Except.ok l :: rest, st, lg⟩).2.sent = st ++ ["AUTHENTICATE"] ∧
    ∃ lg2, (nullBranch env ⟨Except.ok l :: rest, st, lg⟩).2.logs = lg ++ lg2 := by
  unfold nullBranch
  simp only [addLog, sendCmd, takeReply]
  refine ⟨?_, ?_, ?_, ?_⟩
  · split <;> simp_all
  · split <;> simp_all
  · split <;> simp_all
  · split
    · exact ⟨_, by simp; try rfl⟩
    · exact ⟨_, by simp; try rfl⟩

theorem safecookieBranch_logs_mono (env : AuthEnv) (path : String) (io : ConnIO) :
    ∃ ls, (safecookieBranch env path io).2.logs = io.logs ++ ls := by
  rcases io with ⟨rs, st, lg⟩
  unfold safecookieBranch
  cases hrc : env.readCookie path with
  | error e => exact ⟨_, by simp only [addLog]; try simp; try rfl⟩
  | ok cookie =>
    cases rs with
    | nil => exact ⟨_, by simp only [addLog, addLogs, sendCmd, takeReply]; try simp; try rfl⟩
    | cons r rest =>
      cases r with
      | error e => exact ⟨_, by simp only [addLog, addLogs, sendCmd, takeReply]; try simp; try rfl⟩
      | ok resp =>
        rcases hq : parseChallenge resp with ⟨pres, plogs⟩
        cases pres with
        | error e =>
          exact ⟨_, by simp only [addLog, addLogs, sendCmd, takeReply, hq]; simp; try rfl⟩
        | ok p =>
          rcases p with ⟨sh, sn⟩
          by_cases heq : env.hmac serverHmacKey (cookie ++ env.clientNonce ++ sn) = sh
          · cases rest with
            | nil =>
              exact ⟨_, by
                simp only [addLog, addLogs, sendCmd, takeReply, hq]
                rw [if_pos heq]
                try simp only [addLog, addLogs, sendCmd, takeReply]
                simp
                try rfl⟩
            | cons r2 rest2 =>
              cases r2 with
              | error e2 =>
                exact ⟨_, by
                  simp only [addLog, addLogs, sendCmd, takeReply, hq]
                  rw [if_pos heq]
                  try simp only [addLog, addLogs, sendCmd, takeReply]
                  simp
                  try rfl⟩
              | ok l2 =>
                simp only [addLog, addLogs, sendCmd, takeReply, hq]
                rw [if_pos heq]
                try simp only [addLog, addLogs, sendCmd, takeReply]
                split
                · exact ⟨_, by simp; try rfl⟩
                · exact ⟨_, by simp; try rfl⟩
          · exact ⟨_, by
              simp only [addLog, addLogs, sendCmd, takeReply, hq]
              rw [if_neg heq]
              simp
              try rfl⟩

theorem nullBranch_logs_mono (env : AuthEnv) (io : ConnIO) :
    ∃ ls, (nullBranch env io).2.logs = io.logs ++ ls := by
  rcases io with ⟨rs, st, lg⟩
  unfold nullBranch
  cases rs with
  | nil => exact ⟨_, by simp only [addLog, sendCmd, takeReply]; try simp; try rfl⟩
  | cons r rest =>
    cases r with
    | error e => exact ⟨_, by simp only [addLog, sendCmd, takeReply]; try simp; try rfl⟩
    | ok resp =>
      simp only [addLog, sendCmd, takeReply]
      split
      · exact ⟨_, by simp; try rfl⟩
      · exact ⟨_, by simp; try rfl⟩

theorem cookieBranch_logs_cookie (env : AuthEnv) (path : String) (cookie : List Nat)
    (io : ConnIO) (hr : env.readCookie path = Except.ok cookie) :
    ("Cookie data (hex): " ++ hexEncodeLower cookie) ∈ (cookieBranch env path io).2.logs ∧
    ∃ ls, (cookieBranch env path io).2.logs = io.logs ++ ls := by
  rcases io with ⟨rs, st, lg⟩
  unfold cookieBranch
  rw [hr]
  cases rs with
  | nil =>
    refine ⟨by simp [addLog, addLogs, sendCmd, takeReply], ?_⟩
    exact ⟨_, by simp only [addLog, addLogs, sendCmd, takeReply]; try simp; try rfl⟩
  | cons r rest =>
    cases r with
    | error e =>
      refine ⟨by simp [addLog, addLogs, sendCmd, takeReply], ?_⟩
      exact ⟨_, by simp only [addLog, addLogs, sendCmd, takeReply]; try simp; try rfl⟩
    | ok resp =>
      simp only [addLog, addLogs, sendCmd, takeReply]
      constructor
      · split <;> simp
      · split
        · exact ⟨_, by simp; try rfl⟩
        · exact ⟨_, by simp; try rfl⟩

theorem cookieBranch_eval2 (env : AuthEnv) (path : String) (cookie : List Nat)
    (l : List String) (rest : List (Except String (List String))) (st lg : List String)
    (hr : env.readCookie path = Except.ok cookie) :
    ∃ lg2, cookieBranch env path ⟨Except.ok l :: rest, st, lg⟩ =
      ((if l.contains "OK" then some (Except.ok ()) else none),
       ⟨rest, st ++ ["AUTHENTICATE " ++ strToUpper (hexEncodeLower cookie)], lg2⟩) := by
  unfold cookieBranch
  rw [hr]
  simp only [addLog, addLogs, sendCmd, takeReply]
  split
  · exact ⟨_, by try simp; try rfl⟩
  · exact ⟨_, by try simp; try rfl⟩

theorem safecookieBranch_eval2 (env : AuthEnv) (path : String) (cookie : List Nat)
    (resp l2 : List String) (sh sn : List Nat) (rest : List (Except String (List String)))
    (st lg : List String)
    (hr : env.readCookie path = Except.ok cookie)
    (hpc : (parseChallenge resp).1 = Except.ok (sh, sn))
    (heq : env.hmac serverHmacKey (cookie ++ env.clientNonce ++ sn) = sh) :
    ∃ lg2, safecookieBranch env path ⟨Except.ok resp :: Except.ok l2 :: rest, st, lg⟩ =
      ((if l2.contains "OK" then some (Except.ok ()) else none),
       ⟨rest, st ++ ["AUTHCHALLENGE SAFECOOKIE " ++ strToUpper (hexEncodeLower env.clientNonce),
          "AUTHENTICATE " ++ strToUpper (hexEncodeLower
            (env.hmac clientHmacKey (cookie ++ env.clientNonce ++ sn)))], lg2⟩) := by
  rcases hq : parseChallenge resp with ⟨pres, plogs⟩
  rw [hq] at hpc
  simp only at hpc
  subst hpc
  unfold safecookieBranch
  rw [hr]
  simp only [addLog, addLogs, sendCmd, takeReply]
  rw [hq]
  simp only
  rw [if_pos heq]
  try simp only [addLog, addLogs, sendCmd, takeReply]
  split
  · exact ⟨_, by try simp; try rfl⟩
  · exact ⟨_, by try simp; try rfl⟩

theorem nullBranch_eval2 (env : AuthEnv) (l : List String)
    (rest : List (Except String (List String))) (st lg : List String) :
    ∃ lg2, nullBranch env ⟨Except.ok l :: rest, st, lg⟩ =
      ((if l.contains "OK" then some (Except.ok ()) else none),
       ⟨rest, st ++ ["AUTHENTICATE"], lg2⟩) := by
  unfold nullBranch
  simp only [addLog, sendCmd, takeReply]
  split
  · exact ⟨_, by try simp; try rfl⟩
  · exact ⟨_, by try simp; try rfl⟩

/-! ## Claim C1 -/

/-- C1: in the SAFECOOKIE exchange, the client sends its `AUTHENTICATE`
command only after the received server hash has been verified to equal
HMAC-SHA256 with the server-to-controller key over
`cookie || client_nonce || server_nonce`.  If the computed hash differs
from the received one, the attempt fails with the server-hash-mismatch
error and the trace of sent commands ends at the `AUTHCHALLENGE` — no
`AUTHENTICATE` is ever sent; the same holds when the challenge reply does
not parse.  The `AUTHENTICATE` command appears in the trace only in the
branch where the hashes are equal. -/
theorem safecookie_verify_before_auth (env : AuthEnv) (path : String) (io : ConnIO)
    (cookie : List Nat) (resp : List String) (rest : List (Except String (List String)))
    (hr : env.readCookie path = Except.ok cookie)
    (hio : io.replies = Except.ok resp :: rest) :
    (∀ e, (parseChallenge resp).1 = Except.error e →
      (safecookieBranch env path io).1 = some (Except.error e) ∧
      (safecookieBranch env path io).2.sent =
        io.sent ++ ["AUTHCHALLENGE SAFECOOKIE " ++ strToUpper (hexEncodeLower env.clientNonce)]) ∧
    (∀ sh sn, (parseChallenge resp).1 = Except.ok (sh, sn) →
      env.hmac serverHmacKey (cookie ++ env.clientNonce ++ sn) ≠ sh →
      (safecookieBranch env path io).1 =
        some (Except.error "Server hash verification failed") ∧
      (safecookieBranch env path io).2.sent =
        io.sent ++ ["AUTHCHALLENGE SAFECOOKIE " ++ strToUpper (hexEncodeLower env.clientNonce)]) ∧
    (∀ sh sn, (parseChallenge resp).1 = Except.ok (sh, sn) →
      env.hmac serverHmacKey (cookie ++ env.clientNonce ++ sn) = sh →
      (safecookieBranch env path io).2.sent =
        io.sent ++ ["AUTHCHALLENGE SAFECOOKIE " ++ strToUpper (hexEncodeLower env.clientNonce),
          "AUTHENTICATE " ++ strToUpper (hexEncodeLower
            (env.hmac clientHmacKey (cookie ++ env.clientNonce ++ sn)))]) := by
  obtain ⟨rs, st, lg⟩ := io
  replace hio : rs = Except.ok resp :: rest := hio
  subst hio
  refine ⟨fun e hpc => ?_, fun sh sn hpc hne => ?_, fun sh sn hpc heq => ?_⟩
  · exact safecookieBranch_parse_error env path cookie resp e rest st lg hr hpc
  · exact safecookieBranch_mismatch env path cookie resp sh sn rest st lg hr hpc hne
  · exact safecookieBranch_verified_sent env path cookie resp sh sn rest st lg hr hpc heq

/-- Witness for C1: a concrete mismatching exchange fails with the
server-hash-mismatch error. -/
theorem safecookie_verify_before_auth_witness :
    ((parseChallenge ["AUTHCHALLENGE SERVERHASH=FF SERVERNONCE=AA"]).1 =
      Except.ok ([255], [170])) ∧
    (safecookieBranch ⟨fun _ => Except.ok [1], [2], fun _ _ => [9]⟩ "cookiefile"
        ⟨[Except.ok ["AUTHCHALLENGE SERVERHASH=FF SERVERNONCE=AA"]], [], []⟩).1 =
      some (Except.error "Server hash verification failed") := by
  refine ⟨rfl, ?_⟩
  exact ((safecookie_verify_before_auth ⟨fun _ => Except.ok [1], [2], fun _ _ => [9]⟩
      "cookiefile" ⟨[Except.ok ["AUTHCHALLENGE SERVERHASH=FF SERVERNONCE=AA"]], [], []⟩ [1]
      ["AUTHCHALLENGE SERVERHASH=FF SERVERNONCE=AA"] [] rfl rfl).2.1 [255] [170] rfl
      (by decide)).1

/-! ## Claim C2 -/

/-- C2 (code-bug evidence): the claim says the cookie secret is never
written to the log.  The code violates this: whenever the COOKIE branch
runs with a readable cookie file, line 115 of src/main.rs logs
`Cookie data (hex): <hex of the cookie bytes>` at info level — the full
secret, hex-encoded, appears in the log trace of `authenticate` no matter
how the rest of the run proceeds.  (Lines 149 and 215 likewise log the
cookie, and the auth input containing it, in the SAFECOOKIE branch.) -/
theorem cookie_secret_logged (methods : List String) (path : String)
    (env : AuthEnv) (io : ConnIO) (cookie : List Nat)
    (hm : methods.contains "COOKIE" = true)
    (hr : env.readCookie path = Except.ok cookie) :
    ("Cookie data (hex): " ++ hexEncodeLower cookie) ∈
      (authenticateCore methods (some path) env io).2.logs := by
  obtain ⟨rs, st, lg⟩ := io
  unfold authenticateCore
  simp only [addLog]
  rw [if_pos hm]
  generalize (lg ++ ["Supported auth methods: " ++ fmtStrList methods]) ++
      ["Cookie file: " ++ path] = L
  rcases hcb : cookieBranch env path ⟨rs, st, L⟩ with ⟨res1, io3⟩
  obtain ⟨hmem, -⟩ := cookieBranch_logs_cookie env path cookie ⟨rs, st, L⟩ hr
  rw [hcb] at hmem
  replace hmem : ("Cookie data (hex): " ++ hexEncodeLower cookie) ∈ io3.logs := hmem
  cases res1 with
  | some r => simpa using hmem
  | none =>
    simp only
    by_cases hs : methods.contains "SAFECOOKIE" = true
    · rw [if_pos hs]
      rcases hsb : safecookieBranch env path io3 with ⟨res2, io4⟩
      obtain ⟨ls4, hls4⟩ := safecookieBranch_logs_mono env path io3
      rw [hsb] at hls4
      have hmem4 : ("Cookie data (hex): " ++ hexEncodeLower cookie) ∈ io4.logs := by
        replace hls4 : io4.logs = io3.logs ++ ls4 := hls4
        rw [hls4]
        exact List.mem_append_left _ hmem
      cases res2 with
      | some r => simpa using hmem4
      | none =>
        simp only
        by_cases hn : (methods.contains "NULL" || methods.isEmpty) = true
        · rw [if_pos hn]
          rcases hnb : nullBranch env io4 with ⟨res3, io5⟩
          obtain ⟨ls5, hls5⟩ := nullBranch_logs_mono env io4
          rw [hnb] at hls5
          have hmem5 : ("Cookie data (hex): " ++ hexEncodeLower cookie) ∈ io5.logs := by
            replace hls5 : io5.logs = io4.logs ++ ls5 := hls5
            rw [hls5]
            exact List.mem_append_left _ hmem4
          cases res3 <;> simpa using hmem5
        · rw [if_neg hn]
          simpa using hmem4
    · rw [if_neg hs]
      simp only
      by_cases hn : (methods.contains "NULL" || methods.isEmpty) = true
      · rw [if_pos hn]
        rcases hnb : nullBranch env io3 with ⟨res3, io5⟩
        obtain ⟨ls5, hls5⟩ := nullBranch_logs_mono env io3
        rw [hnb] at hls5
        have hmem5 : ("Cookie data (hex): " ++ hexEncodeLower cookie) ∈ io5.logs := by
          replace hls5 : io5.logs = io3.logs ++ ls5 := hls5
          rw [hls5]
          exact List.mem_append_left _ hmem
        cases res3 <;> simpa using hmem5
      · rw [if_neg hn]
        simpa using hmem

/-- Witness for C2: a concrete run whose log contains the hex of the
cookie bytes `0xDE 0xAD`. -/
theorem cookie_secret_logged_witness :
    hexEncodeLower [222, 173] = "dead" ∧
    ("Cookie data (hex): " ++ hexEncodeLower [222, 173]) ∈
      (authenticateCore ["COOKIE"] (some "cookiefile")
        ⟨fun _ => Except.ok [222, 173], [], fun _ _ => []⟩ ⟨[], [], []⟩).2.logs := by
  exact ⟨rfl, cookie_secret_logged ["COOKIE"] "cookiefile"
    ⟨fun _ => Except.ok [222, 173], [], fun _ _ => []⟩ ⟨[], [], []⟩ [222, 173] rfl rfl⟩

/-! ## Claim C5 -/

/-- C5: `authenticate` tries COOKIE, then SAFECOOKIE, then NULL, in that
fixed order, stopping at the first scheme whose reply contains the literal
line `OK`.  With all three methods advertised, a known cookie file and a
well-formed, hash-matching challenge: (a) if the COOKIE reply contains
`OK` the run succeeds having sent only the cookie `AUTHENTICATE`; (b) if
the COOKIE reply lacks `OK` the run falls through to SAFECOOKIE, and
succeeds there when its reply contains `OK`; (c) if both lack `OK` the run
falls through to NULL — every applicable branch has then been attempted,
and the all-methods-failed error is returned only when the NULL reply also
lacks `OK`. -/
theorem authenticate_method_order (methods : List String) (path : String)
    (env : AuthEnv) (io : ConnIO) (cookie : List Nat)
    (l1 chalResp l3 l4 : List String) (sh sn : List Nat)
    (hm1 : methods.contains "COOKIE" = true)
    (hm2 : methods.contains "SAFECOOKIE" = true)
    (hm3 : methods.contains "NULL" = true)
    (hr : env.readCookie path = Except.ok cookie)
    (hio : io.replies = [Except.ok l1, Except.ok chalResp, Except.ok l3, Except.ok l4])
    (hpc : (parseChallenge chalResp).1 = Except.ok (sh, sn))
    (hh : env.hmac serverHmacKey (cookie ++ env.clientNonce ++ sn) = sh) :
    (l1.contains "OK" = true →
      (authenticateCore methods (some path) env io).1 = Except.ok () ∧
      (authenticateCore methods (some path) env io).2.sent =
        io.sent ++ ["AUTHENTICATE " ++ strToUpper (hexEncodeLower cookie)]) ∧
    (l1.contains "OK" = false → l3.contains "OK" = true →
      (authenticateCore methods (some path) env io).1 = Except.ok () ∧
      (authenticateCore methods (some path) env io).2.sent =
        io.sent ++ ["AUTHENTICATE " ++ strToUpper (hexEncodeLower cookie),
          "AUTHCHALLENGE SAFECOOKIE " ++ strToUpper (hexEncodeLower env.clientNonce),
          "AUTHENTICATE " ++ strToUpper (hexEncodeLower
            (env.hmac clientHmacKey (cookie ++ env.clientNonce ++ sn)))]) ∧
    (l1.contains "OK" = false → l3.contains "OK" = false →
      (authenticateCore methods (some path) env io).2.sent =
        io.sent ++ ["AUTHENTICATE " ++ strToUpper (hexEncodeLower cookie),
          "AUTHCHALLENGE SAFECOOKIE " ++ strToUpper (hexEncodeLower env.clientNonce),
          "AUTHENTICATE " ++ strToUpper (hexEncodeLower
            (env.hmac clientHmacKey (cookie ++ env.clientNonce ++ sn))),
          "AUTHENTICATE"] ∧
      (authenticateCore methods (some path) env io).1 =
        (if l4.contains "OK" then Except.ok ()
         else Except.error "Failed to authenticate with Tor control port")) := by
  obtain ⟨rs, st, lg⟩ := io
  replace hio : rs = [Except.ok l1, Except.ok chalResp, Except.ok l3, Except.ok l4] := hio
  subst hio
  unfold authenticateCore
  simp only [addLog]
  rw [if_pos hm1]
  generalize (lg ++ ["Supported auth methods: " ++ fmtStrList methods]) ++
      ["Cookie file: " ++ path] = L
  obtain ⟨lgc, hcb⟩ := cookieBranch_eval2 env path cookie l1
    [Except.ok chalResp, Except.ok l3, Except.ok l4] st L hr
  rw [hcb]
  refine ⟨fun hOK1 => ?_, fun hOK1 hOK3 => ?_, fun hOK1 hOK3 => ?_⟩
  · rw [if_pos hOK1]
    exact ⟨rfl, rfl⟩
  · rw [if_neg (by rw [hOK1]; simp)]
    simp only
    rw [if_pos hm2]
    obtain ⟨lgs, hsb⟩ := safecookieBranch_eval2 env path cookie chalResp l3 sh sn
      [Except.ok l4] (st ++ ["AUTHENTICATE " ++ strToUpper (hexEncodeLower cookie)]) lgc
      hr hpc hh
    rw [hsb]
    rw [if_pos hOK3]
    exact ⟨rfl, by simp⟩
  · rw [if_neg (by rw [hOK1]; simp)]
    simp only
    rw [if_pos hm2]
    obtain ⟨lgs, hsb⟩ := safecookieBranch_eval2 env path cookie chalResp l3 sh sn
      [Except.ok l4] (st ++ ["AUTHENTICATE " ++ strToUpper (hexEncodeLower cookie)]) lgc
      hr hpc hh
    rw [hsb]
    rw [if_neg (by rw [hOK3]; simp)]
    simp only
    rw [if_pos (show (methods.contains "NULL" || methods.isEmpty) = true by rw [hm3]; simp)]
    obtain ⟨lgn, hnb⟩ := nullBranch_eval2 env l4 []
      ((st ++ ["AUTHENTICATE " ++ strToUpper (hexEncodeLower cookie)]) ++
        ["AUTHCHALLENGE SAFECOOKIE " ++ strToUpper (hexEncodeLower env.clientNonce),
         "AUTHENTICATE " ++ strToUpper (hexEncodeLower
           (env.hmac clientHmacKey (cookie ++ env.clientNonce ++ sn)))]) lgs
    rw [hnb]
    cases hOK4 : l4.contains "OK" with
    | true =>
      rw [if_pos rfl]
      exact ⟨by simp, rfl⟩
    | false =>
      rw [if_neg (show ¬((false : Bool) = true) by simp)]
      exact ⟨by simp, rfl⟩

/-- Witness for C5: a concrete run in which COOKIE and SAFECOOKIE both get
non-`OK` replies and NULL succeeds, sending the four commands in order. -/
theorem authenticate_method_order_witness :
    (authenticateCore ["COOKIE", "SAFECOOKIE", "NULL"] (some "cookiefile")
        ⟨fun _ => Except.ok [1], [2], fun _ _ => [9]⟩
        ⟨[Except.ok [], Except.ok ["AUTHCHALLENGE SERVERHASH=09 SERVERNONCE=AA"],
          Except.ok [], Except.ok ["OK"]], [], []⟩).2.sent =
      ["AUTHENTICATE 01", "AUTHCHALLENGE SAFECOOKIE 02", "AUTHENTICATE 09",
       "AUTHENTICATE"] ∧
    (authenticateCore ["COOKIE", "SAFECOOKIE", "NULL"] (some "cookiefile")
        ⟨fun _ => Except.ok [1], [2], fun _ _ => [9]⟩
        ⟨[Except.ok [], Except.ok ["AUTHCHALLENGE SERVERHASH=09 SERVERNONCE=AA"],
          Except.ok [], Except.ok ["OK"]], [], []⟩).1 = Except.ok () := by
  have h := (authenticate_method_order ["COOKIE", "SAFECOOKIE", "NULL"] "cookiefile"
      ⟨fun _ => Except.ok [1], [2], fun _ _ => [9]⟩
      ⟨[Except.ok [], Except.ok ["AUTHCHALLENGE SERVERHASH=09 SERVERNONCE=AA"],
        Except.ok [], Except.ok ["OK"]], [], []⟩ [1]
      [] ["AUTHCHALLENGE SERVERHASH=09 SERVERNONCE=AA"] [] ["OK"] [9] [170]
      rfl rfl rfl rfl rfl rfl rfl).2.2 rfl rfl
  exact ⟨h.1, h.2⟩
